import Mathlib

/-!
Verification of `src/googlenet/model.py` (repository `francisol/famous-cnn-models`).

The Python file builds a TensorFlow 1.x computation graph for GoogLeNet
(Inception v1) and then runs a training/evaluation loop in a session.  We
embed the graph shallowly: every TensorFlow library call that the file uses
becomes a constructor of the inductive type `Tensor` (the call's arguments,
defaults included, are recorded in the constructor's fields), and the Python
functions `inception`, `auxiliary` and the forward-pass part of `run` become
Lean functions building `Tensor` values.  Static shape inference for the
recorded operations is the function `shapeOf`, following TensorFlow's
documented shape rules ('same' padding gives `ceil(size / stride)`, 'valid'
gives `(size - window) / stride + 1`); an unconstrained dimension (Python
`None`) is `Option.none`.  The session phase of `run` (the epoch/batch loop
and the evaluations) is modelled as the explicit list of session calls it
performs, in order.
-/

namespace GoogLeNet

/-- Padding mode passed to a convolution or pooling call. -/
inductive Padding where
  | same
  | valid
deriving DecidableEq

/-- A node of the TensorFlow graph built by `model.py`.  Each constructor is
one of the library calls the file uses, with the arguments it passes
(defaults spelled out: `tf.layers.conv2d` defaults to strides (1,1) and
'valid' padding, `tf.layers.dense` to linear activation). -/
inductive Tensor where
  | placeholder (name : String) (shape : List (Option Nat))
  | conv2d (input : Tensor) (filters : Nat) (kernelSize : Nat × Nat)
      (strides : Nat × Nat) (padding : Padding)
  | maxPooling2d (input : Tensor) (poolSize : Nat × Nat)
      (strides : Nat × Nat) (padding : Padding)
  | averagePooling2d (input : Tensor) (poolSize : Nat × Nat)
      (strides : Nat × Nat) (padding : Padding)
  | localResponseNormalization (input : Tensor)
      (depthRadius bias alpha beta : ℚ)
  | concat (inputs : List Tensor) (axis : Nat)
  | flatten (input : Tensor)
  | dense (input : Tensor) (units : Nat)
  | dropout (input : Tensor) (rate : ℚ)
  | softmaxCrossEntropyWithLogitsV2 (labels logits : Tensor)
  | reduceMean (input : Tensor)
  | round (input : Tensor)
  | equal (x y : Tensor)
  | castFloat32 (input : Tensor)

/-- A statically known (`some n`) or unconstrained (`none`) dimension. -/
abbrev Dim := Option Nat

/-- Output size of a windowed op with 'same' padding: `ceil(d / stride)`. -/
def sameDim (d : Dim) (stride : Nat) : Dim :=
  d.map fun n => (n + stride - 1) / stride

/-- Output size of a windowed op with 'valid' padding:
`(d - window) / stride + 1`, defined only when `window ≤ d`. -/
def validDim (d : Dim) (window stride : Nat) : Option Dim :=
  match d with
  | none => some none
  | some n => if window ≤ n then some (some ((n - window) / stride + 1)) else none

/-- Output size of a windowed op (convolution or pooling). -/
def windowDim (p : Padding) (d : Dim) (window stride : Nat) : Option Dim :=
  match p with
  | .same => some (sameDim d stride)
  | .valid => validDim d window stride

/-- Sum of two dimensions; unknown if either is unknown. -/
def addDim : Dim → Dim → Dim
  | some a, some b => some (a + b)
  | _, _ => none

/-- Shape of the concatenation of two tensors along `axis`, walking the two
shapes with the current index `idx`: the shapes must agree everywhere except
at `axis`, where the dimensions add. -/
def concatTwoAux (axis : Nat) : Nat → List Dim → List Dim → Option (List Dim)
  | _, [], [] => some []
  | idx, d₁ :: s₁, d₂ :: s₂ =>
      if axis = idx then
        if s₁ = s₂ then some (addDim d₁ d₂ :: s₁) else none
      else
        if d₁ = d₂ then (concatTwoAux axis (idx + 1) s₁ s₂).map (d₁ :: ·) else none
  | _, _, _ => none

/-- Shape of the concatenation of two tensors along `axis`. -/
def concatTwo (axis : Nat) (s₁ s₂ : List Dim) : Option (List Dim) :=
  concatTwoAux axis 0 s₁ s₂

/-- Shape of `tf.concat` of a list of shapes along `axis`. -/
def concatShapes (axis : Nat) : List (List Dim) → Option (List Dim)
  | [] => none
  | s :: ss => ss.foldlM (concatTwo axis) s

mutual

/-- Static shape inference over the recorded graph, following TensorFlow's
shape rules for each of the operations used by `model.py`. -/
def shapeOf : Tensor → Option (List Dim)
  | .placeholder _ s => some s
  | .conv2d t f (kh, kw) (sh, sw) p => do
      match ← shapeOf t with
      | [b, h, w, some _] => do
          let h' ← windowDim p h kh sh
          let w' ← windowDim p w kw sw
          some [b, h', w', some f]
      | _ => none
  | .maxPooling2d t (kh, kw) (sh, sw) p => do
      match ← shapeOf t with
      | [b, h, w, c] => do
          let h' ← windowDim p h kh sh
          let w' ← windowDim p w kw sw
          some [b, h', w', c]
      | _ => none
  | .averagePooling2d t (kh, kw) (sh, sw) p => do
      match ← shapeOf t with
      | [b, h, w, c] => do
          let h' ← windowDim p h kh sh
          let w' ← windowDim p w kw sw
          some [b, h', w', c]
      | _ => none
  | .localResponseNormalization t _ _ _ _ => shapeOf t
  | .concat ts axis => do concatShapes axis (← shapesOf ts)
  | .flatten t => do
      match ← shapeOf t with
      | b :: rest => do
          let dims ← rest.mapM id
          some [b, some dims.prod]
      | [] => none
  | .dense t u => do
      match ← shapeOf t with
      | [] => none
      | s => some (s.dropLast ++ [some u])
  | .dropout t _ => shapeOf t
  | .softmaxCrossEntropyWithLogitsV2 l g => do
      let sl ← shapeOf l
      let sg ← shapeOf g
      match sl with
      | [] => none
      | _ => if sl = sg then some sl.dropLast else none
  | .reduceMean t => do
      let _ ← shapeOf t
      some []
  | .round t => shapeOf t
  | .equal x y => do
      let sx ← shapeOf x
      let sy ← shapeOf y
      if sx = sy then some sx else none
  | .castFloat32 t => shapeOf t

/-- Shapes of a list of tensors (all must be defined). -/
def shapesOf : List Tensor → Option (List (List Dim))
  | [] => some []
  | t :: ts => do
      let s ← shapeOf t
      let ss ← shapesOf ts
      some (s :: ss)

end

/-- Function `GoogLeNet.inception` from `model.py`: four parallel paths applied to
the same input, concatenated along axis 3. -/
def inception (inputs : Tensor) (conv_11_size conv_33_reduce_size conv_33_size
    conv_56_reduce_size conv_56_size pool_proj_size : Nat) : Tensor :=
  let conv_11 := Tensor.conv2d inputs conv_11_size (1, 1) (1, 1) .same
  let conv_33_reduce := Tensor.conv2d inputs conv_33_reduce_size (1, 1) (1, 1) .same
  let conv_33 := Tensor.conv2d conv_33_reduce conv_33_size (3, 3) (1, 1) .same
  let conv_56_reduce := Tensor.conv2d inputs conv_56_reduce_size (1, 1) (1, 1) .same
  let conv_56 := Tensor.conv2d conv_56_reduce conv_56_size (5, 5) (1, 1) .same
  let pool := Tensor.maxPooling2d inputs (3, 3) (1, 1) .same
  let conv_pool := Tensor.conv2d pool pool_proj_size (1, 1) (1, 1) .same
  Tensor.concat [conv_11, conv_33, conv_56, conv_pool] 3

/-- Function `GoogLeNet.auxiliary` from `model.py`: the auxiliary classifier head
(`conv2d` is called there without strides or padding, so TensorFlow's
defaults (1,1) and 'valid' apply; likewise `dense` with linear activation). -/
def auxiliary (numClasses : Nat) (inputs : Tensor) : Tensor :=
  let pool := Tensor.averagePooling2d inputs (5, 5) (3, 3) .same
  let conv := Tensor.conv2d pool 128 (1, 1) (1, 1) .valid
  let flat := Tensor.flatten conv
  let full := Tensor.dense flat 1024
  let drop := Tensor.dropout full (3 / 10)
  Tensor.dense drop numClasses

/-- The optimizer step built by `run`:
`tf.train.AdamOptimizer(self.learning_rate).minimize(loss)`. -/
inductive TrainOp where
  | adamMinimize (learning_rate : ℚ) (loss : Tensor)

/-- All named nodes built by the graph-construction part of `GoogLeNet.run`,
with the Python local-variable names. -/
structure RunGraph where
  X : Tensor
  y : Tensor
  conv_1 : Tensor
  pool_1 : Tensor
  norm_1 : Tensor
  conv_2a : Tensor
  conv_2b : Tensor
  norm_2 : Tensor
  pool_2 : Tensor
  inception_3a : Tensor
  inception_3b : Tensor
  pool_3 : Tensor
  inception_4a : Tensor
  inception_4b : Tensor
  inception_4c : Tensor
  inception_4d : Tensor
  inception_4e : Tensor
  pool_4 : Tensor
  auxiliary_1 : Tensor
  auxiliary_2 : Tensor
  inception_5a : Tensor
  inception_5b : Tensor
  pool_5 : Tensor
  flat_5 : Tensor
  drop_6 : Tensor
  linear : Tensor
  cross_entropy : Tensor
  loss : Tensor
  train : TrainOp
  corrects : Tensor
  accuracy : Tensor

/-- The graph built by `GoogLeNet.run` (lines 142–199 of `model.py`),
node by node in program order.  `numClasses` is `self.num_classes` and
`learning_rate` is `self.learning_rate`. -/
def run (numClasses : Nat) (learning_rate : ℚ) : RunGraph :=
  let X := Tensor.placeholder "image" [none, some 224, some 224, some 3]
  let y := Tensor.placeholder "label" [none, some numClasses]
  let conv_1 := Tensor.conv2d X 64 (7, 7) (2, 2) .same
  let pool_1 := Tensor.maxPooling2d conv_1 (3, 3) (2, 2) .same
  let norm_1 := Tensor.localResponseNormalization pool_1 2 1 (2 / 10000) (3 / 4)
  let conv_2a := Tensor.conv2d norm_1 64 (1, 1) (1, 1) .same
  let conv_2b := Tensor.conv2d conv_2a 192 (3, 3) (1, 1) .same
  let norm_2 := Tensor.localResponseNormalization conv_2b 2 1 (2 / 10000) (3 / 4)
  let pool_2 := Tensor.maxPooling2d norm_2 (3, 3) (2, 2) .same
  let inception_3a := inception pool_2 64 96 128 16 32 32
  let inception_3b := inception inception_3a 128 128 192 32 96 64
  let pool_3 := Tensor.maxPooling2d inception_3b (3, 3) (2, 2) .same
  let inception_4a := inception pool_3 192 96 208 16 48 64
  let inception_4b := inception inception_4a 160 112 224 24 64 64
  let inception_4c := inception inception_4b 128 128 256 24 64 64
  let inception_4d := inception inception_4c 112 144 288 32 64 64
  let inception_4e := inception inception_4d 256 160 320 32 128 128
  let pool_4 := Tensor.maxPooling2d inception_4e (3, 3) (2, 2) .same
  let auxiliary_1 := auxiliary numClasses inception_4a
  let auxiliary_2 := auxiliary numClasses inception_4d
  let inception_5a := inception pool_4 256 160 320 32 128 128
  let inception_5b := inception inception_5a 384 192 384 48 128 128
  let pool_5 := Tensor.averagePooling2d inception_5b (7, 7) (1, 1) .valid
  let flat_5 := Tensor.flatten pool_5
  let drop_6 := Tensor.dropout flat_5 (4 / 10)
  let linear := Tensor.dense drop_6 numClasses
  let cross_entropy := Tensor.softmaxCrossEntropyWithLogitsV2 y linear
  let loss := Tensor.reduceMean cross_entropy
  let train := TrainOp.adamMinimize learning_rate loss
  let corrects := Tensor.equal (Tensor.round linear) (Tensor.round y)
  let accuracy := Tensor.reduceMean (Tensor.castFloat32 corrects)
  { X := X, y := y, conv_1 := conv_1, pool_1 := pool_1, norm_1 := norm_1,
    conv_2a := conv_2a, conv_2b := conv_2b, norm_2 := norm_2, pool_2 := pool_2,
    inception_3a := inception_3a, inception_3b := inception_3b, pool_3 := pool_3,
    inception_4a := inception_4a, inception_4b := inception_4b,
    inception_4c := inception_4c, inception_4d := inception_4d,
    inception_4e := inception_4e, pool_4 := pool_4,
    auxiliary_1 := auxiliary_1, auxiliary_2 := auxiliary_2,
    inception_5a := inception_5a, inception_5b := inception_5b,
    pool_5 := pool_5, flat_5 := flat_5, drop_6 := drop_6, linear := linear,
    cross_entropy := cross_entropy, loss := loss, train := train,
    corrects := corrects, accuracy := accuracy }

/-- The named nodes of the comparison graph in which the two auxiliary
classifier heads are removed (stated from the claim's words: "the same graph
with the two auxiliary heads removed"). -/
structure RunGraphNoAux where
  X : Tensor
  y : Tensor
  conv_1 : Tensor
  pool_1 : Tensor
  norm_1 : Tensor
  conv_2a : Tensor
  conv_2b : Tensor
  norm_2 : Tensor
  pool_2 : Tensor
  inception_3a : Tensor
  inception_3b : Tensor
  pool_3 : Tensor
  inception_4a : Tensor
  inception_4b : Tensor
  inception_4c : Tensor
  inception_4d : Tensor
  inception_4e : Tensor
  pool_4 : Tensor
  inception_5a : Tensor
  inception_5b : Tensor
  pool_5 : Tensor
  flat_5 : Tensor
  drop_6 : Tensor
  linear : Tensor
  cross_entropy : Tensor
  loss : Tensor
  train : TrainOp
  corrects : Tensor
  accuracy : Tensor

/-- The graph of `GoogLeNet.run` with the two auxiliary-head lines deleted
and everything else unchanged (the claim's comparison graph). -/
def runNoAux (numClasses : Nat) (learning_rate : ℚ) : RunGraphNoAux :=
  let X := Tensor.placeholder "image" [none, some 224, some 224, some 3]
  let y := Tensor.placeholder "label" [none, some numClasses]
  let conv_1 := Tensor.conv2d X 64 (7, 7) (2, 2) .same
  let pool_1 := Tensor.maxPooling2d conv_1 (3, 3) (2, 2) .same
  let norm_1 := Tensor.localResponseNormalization pool_1 2 1 (2 / 10000) (3 / 4)
  let conv_2a := Tensor.conv2d norm_1 64 (1, 1) (1, 1) .same
  let conv_2b := Tensor.conv2d conv_2a 192 (3, 3) (1, 1) .same
  let norm_2 := Tensor.localResponseNormalization conv_2b 2 1 (2 / 10000) (3 / 4)
  let pool_2 := Tensor.maxPooling2d norm_2 (3, 3) (2, 2) .same
  let inception_3a := inception pool_2 64 96 128 16 32 32
  let inception_3b := inception inception_3a 128 128 192 32 96 64
  let pool_3 := Tensor.maxPooling2d inception_3b (3, 3) (2, 2) .same
  let inception_4a := inception pool_3 192 96 208 16 48 64
  let inception_4b := inception inception_4a 160 112 224 24 64 64
  let inception_4c := inception inception_4b 128 128 256 24 64 64
  let inception_4d := inception inception_4c 112 144 288 32 64 64
  let inception_4e := inception inception_4d 256 160 320 32 128 128
  let pool_4 := Tensor.maxPooling2d inception_4e (3, 3) (2, 2) .same
  let inception_5a := inception pool_4 256 160 320 32 128 128
  let inception_5b := inception inception_5a 384 192 384 48 128 128
  let pool_5 := Tensor.averagePooling2d inception_5b (7, 7) (1, 1) .valid
  let flat_5 := Tensor.flatten pool_5
  let drop_6 := Tensor.dropout flat_5 (4 / 10)
  let linear := Tensor.dense drop_6 numClasses
  let cross_entropy := Tensor.softmaxCrossEntropyWithLogitsV2 y linear
  let loss := Tensor.reduceMean cross_entropy
  let train := TrainOp.adamMinimize learning_rate loss
  let corrects := Tensor.equal (Tensor.round linear) (Tensor.round y)
  let accuracy := Tensor.reduceMean (Tensor.castFloat32 corrects)
  { X := X, y := y, conv_1 := conv_1, pool_1 := pool_1, norm_1 := norm_1,
    conv_2a := conv_2a, conv_2b := conv_2b, norm_2 := norm_2, pool_2 := pool_2,
    inception_3a := inception_3a, inception_3b := inception_3b, pool_3 := pool_3,
    inception_4a := inception_4a, inception_4b := inception_4b,
    inception_4c := inception_4c, inception_4d := inception_4d,
    inception_4e := inception_4e, pool_4 := pool_4,
    inception_5a := inception_5a, inception_5b := inception_5b,
    pool_5 := pool_5, flat_5 := flat_5, drop_6 := drop_6, linear := linear,
    cross_entropy := cross_entropy, loss := loss, train := train,
    corrects := corrects, accuracy := accuracy }

/-- Python `range(start, stop, step)` as the list of values taken, for the
ascending case used by `run` (`range(0, len(X_train), self.batch_size)`);
an empty list for `step = 0`, where Python would raise instead. -/
def pyRange (start stop step : Nat) : List Nat :=
  if h : step = 0 ∨ stop ≤ start then []
  else start :: pyRange (start + step) stop step
termination_by stop - start
decreasing_by omega

/-- Python slice `xs[start : stop]` for `start ≤ stop`. -/
def pySlice (xs : List α) (start stop : Nat) : List α :=
  (xs.drop start).take (stop - start)

/-- One `sess.run` call performed by the training/evaluation loop of
`GoogLeNet.run`: a training step on a batch (epoch index, batch start and the
two slices fed), the per-epoch `(loss, accuracy)` evaluation on the
validation set, or the final `(loss, accuracy)` evaluation on the test set. -/
inductive Event (α β : Type) where
  | trainStep (epoch start : Nat) (batchX : List α) (batchY : List β)
  | evalValidation (epoch : Nat)
  | evalTest
deriving DecidableEq

/-- Whether an event is a training step. -/
def Event.isTrainStep : Event α β → Bool
  | .trainStep _ _ _ _ => true
  | _ => false

/-- Whether an event is the per-epoch validation evaluation. -/
def Event.isEvalValidation : Event α β → Bool
  | .evalValidation _ => true
  | _ => false

/-- Whether an event is the final test-set evaluation. -/
def Event.isEvalTest : Event α β → Bool
  | .evalTest => true
  | _ => false

/-- The session calls of one epoch's inner batch loop:
`for start in range(0, len(X_train), self.batch_size)` with
`batch_X, batch_y = X_train[start:end], y_train[start:end]`,
`end = start + self.batch_size`. -/
def epochEvents (X_train : List α) (y_train : List β) (batch_size i : Nat) :
    List (Event α β) :=
  (pyRange 0 X_train.length batch_size).map fun start =>
    .trainStep i start (pySlice X_train start (start + batch_size))
      (pySlice y_train start (start + batch_size))

/-- The full ordered list of session calls performed by `GoogLeNet.run`
after building the graph: for each epoch, the batch training steps followed
by one validation evaluation; after all epochs, one test evaluation. -/
def runTrace (X_train : List α) (y_train : List β) (num_epochs batch_size : Nat) :
    List (Event α β) :=
  ((List.range num_epochs).flatMap fun i =>
    epochEvents X_train y_train batch_size i ++ [.evalValidation i])
    ++ [.evalTest]

/-- What a session call fetches: either plain graph tensors, or the Adam
training op built by `optimizer.minimize(loss)`. -/
inductive Fetch where
  | tensors (ts : List Tensor)
  | trainOp (op : TrainOp)

/-- The fetch argument of each session call in `run`: training steps run
`train`; both evaluations run the pair `(loss, accuracy)`. -/
def fetchOf (g : RunGraph) : Event α β → Fetch
  | .trainStep _ _ _ _ => .trainOp g.train
  | .evalValidation _ => .tensors [g.loss, g.accuracy]
  | .evalTest => .tensors [g.loss, g.accuracy]

/-- Whether running a fetch can change the model parameters.  This models
the TensorFlow session semantics: only the training op (whose graph contains
the Adam variable assignments) writes to variables; fetching plain tensors
is a pure read of the graph. -/
def Fetch.updatesParams : Fetch → Bool
  | .tensors _ => false
  | .trainOp _ => true

/-- Parameter state after one session call, for an arbitrary parameter type
`P` and an arbitrary effect `applyTrain` of the training op: a fetch that
does not update parameters leaves them unchanged. -/
def sessStep (applyTrain : P → P) (p : P) (f : Fetch) : P :=
  if f.updatesParams then applyTrain p else p

/-- Sequential execution of a list of session calls with no error handling,
as in `run` (which contains no `try`/`except`): each call is attempted once,
in order, and the first error aborts the remainder.  Returns the calls
actually attempted together with the error, if any. -/
def runSeq (exec : Event α β → Except ε Unit) :
    List (Event α β) → List (Event α β) × Option ε
  | [] => ([], none)
  | e :: es =>
    match exec e with
    | .ok _ => ((runSeq exec es).1.cons e, (runSeq exec es).2)
    | .error err => ([e], some err)

/-- Round half to even, the rounding used by `tf.round`. -/
def tfRound (q : ℚ) : ℤ :=
  if Int.fract q < 1 / 2 then ⌊q⌋
  else if 1 / 2 < Int.fract q then ⌊q⌋ + 1
  else if ⌊q⌋ % 2 = 0 then ⌊q⌋ else ⌊q⌋ + 1

/-- Elementwise `tf.round` on one row of values. -/
def roundRow (r : List ℚ) : List ℚ := r.map fun q => (tfRound q : ℚ)

/-- Elementwise `tf.equal` on two rows of values. -/
def equalRow (a b : List ℚ) : List Bool := (a.zip b).map fun p => decide (p.1 = p.2)

/-- Elementwise `tf.cast(·, tf.float32)` on one row of booleans. -/
def castRow (bs : List Bool) : List ℚ := bs.map fun b => if b then 1 else 0

/-- Elementwise `tf.round` on a matrix (one row per example). -/
def roundMat (M : List (List ℚ)) : List (List ℚ) := M.map roundRow

/-- Elementwise `tf.equal` on two matrices. -/
def equalMat (A B : List (List ℚ)) : List (List Bool) :=
  (A.zip B).map fun p => equalRow p.1 p.2

/-- Elementwise cast to float on a matrix of booleans. -/
def castMat (M : List (List Bool)) : List (List ℚ) := M.map castRow

/-- The call `tf.reduce_mean` with no axis argument: the mean of all entries. -/
def reduceMeanAll (M : List (List ℚ)) : ℚ :=
  (M.map List.sum).sum / (((M.map List.length).sum : Nat) : ℚ)

/-- The value of the accuracy expression
`tf.reduce_mean(tf.cast(tf.equal(tf.round(linear), tf.round(y)), tf.float32))`
built by `run`, given concrete values `L` of `linear` and `Y` of `y`. -/
def accuracyValue (L Y : List (List ℚ)) : ℚ :=
  reduceMeanAll (castMat (equalMat (roundMat L) (roundMat Y)))

/-- The accuracy described by the claim: the mean over all
(example, class) index pairs of the indicator that the rounded entries
agree. -/
def elementwiseAccuracy (L Y : List (List ℚ)) (n c : Nat) : ℚ :=
  (∑ i ∈ Finset.range n, ∑ j ∈ Finset.range c,
      if tfRound ((L.getD i []).getD j 0) = tfRound ((Y.getD i []).getD j 0)
      then (1 : ℚ) else 0)
    / ((n : ℚ) * (c : ℚ))

/-- The shape `np.shape` of a rectangular two-dimensional array. -/
def npShape2 (M : List (List α)) : List Nat := [M.length, (M.headD []).length]

/-- Assignment `self.num_classes = np.shape(y_train)[1]` from `GoogLeNet.__init__`. -/
def num_classes (y_train : List (List α)) : Nat := (npShape2 y_train).getD 1 0

/-- Number of optimizer steps per epoch, `ceil(len(X_train) / batch_size)`. -/
def stepsPerEpoch (n batch_size : Nat) : Nat := (n + batch_size - 1) / batch_size

/-! ## Claims -/

/-- C1: the inception operation returns the concatenation along the channel
dimension (axis 3), in order, of four parallel paths computed from the same
input: a 1x1 convolution with `conv_11_size` filters; a 1x1 convolution with
`conv_33_reduce_size` filters followed by a 3x3 convolution with
`conv_33_size` filters; a 1x1 convolution with `conv_56_reduce_size` filters
followed by a 5x5 convolution with `conv_56_size` filters; and a 3x3
stride-1 max pooling followed by a 1x1 convolution with `pool_proj_size`
filters; every step uses 'same' padding. -/
theorem inception_is_concat_of_four_paths (inputs : Tensor)
    (conv_11_size conv_33_reduce_size conv_33_size
      conv_56_reduce_size conv_56_size pool_proj_size : Nat) :
    inception inputs conv_11_size conv_33_reduce_size conv_33_size
        conv_56_reduce_size conv_56_size pool_proj_size
      = Tensor.concat
          [Tensor.conv2d inputs conv_11_size (1, 1) (1, 1) .same,
           Tensor.conv2d (Tensor.conv2d inputs conv_33_reduce_size (1, 1) (1, 1) .same)
             conv_33_size (3, 3) (1, 1) .same,
           Tensor.conv2d (Tensor.conv2d inputs conv_56_reduce_size (1, 1) (1, 1) .same)
             conv_56_size (5, 5) (1, 1) .same,
           Tensor.conv2d (Tensor.maxPooling2d inputs (3, 3) (1, 1) .same)
             pool_proj_size (1, 1) (1, 1) .same] 3 := rfl

/-- C4: the minimized objective is the mean over the batch of the softmax
cross-entropy between the label placeholder `y` and the logits of the final
dense layer, each step being a single library primitive (the
`softmaxCrossEntropyWithLogitsV2`, `reduceMean` and `adamMinimize`
constructors each record exactly one library call). -/
theorem loss_is_mean_softmax_cross_entropy (numClasses : Nat) (learning_rate : ℚ) :
    (run numClasses learning_rate).loss
        = Tensor.reduceMean
            (Tensor.softmaxCrossEntropyWithLogitsV2
              (run numClasses learning_rate).y (run numClasses learning_rate).linear)
      ∧ (run numClasses learning_rate).linear
        = Tensor.dense (run numClasses learning_rate).drop_6 numClasses
      ∧ (run numClasses learning_rate).train
        = TrainOp.adamMinimize learning_rate (run numClasses learning_rate).loss :=
  ⟨rfl, rfl, rfl⟩

/-- C6: the two auxiliary heads are built (from inception 4a and 4d) but the
loss, the training op and the accuracy are the very graphs of the
auxiliary-free variant, so every evaluation of loss, training update or
accuracy gives identical results with or without the auxiliary heads. -/
theorem auxiliary_heads_unused (numClasses : Nat) (lr : ℚ)
    (V W : Type) (evalT : Tensor → V) (evalOp : TrainOp → W) :
    (run numClasses lr).auxiliary_1 = auxiliary numClasses (run numClasses lr).inception_4a
    ∧ (run numClasses lr).auxiliary_2 = auxiliary numClasses (run numClasses lr).inception_4d
    ∧ (run numClasses lr).loss = (runNoAux numClasses lr).loss
    ∧ (run numClasses lr).train = (runNoAux numClasses lr).train
    ∧ (run numClasses lr).accuracy = (runNoAux numClasses lr).accuracy
    ∧ evalT (run numClasses lr).loss = evalT (runNoAux numClasses lr).loss
    ∧ evalOp (run numClasses lr).train = evalOp (runNoAux numClasses lr).train
    ∧ evalT (run numClasses lr).accuracy = evalT (runNoAux numClasses lr).accuracy :=
  ⟨rfl, rfl, rfl, rfl, rfl, rfl, rfl, rfl⟩

/-- Stride-1 'same' padding preserves a dimension. -/
theorem sameDim_one (d : Dim) : sameDim d 1 = d := by
  cases d <;> simp [sameDim]

/-- C7: on an input of shape `(N, H, W, C)`, inception returns shape
`(N, H, W, conv_11_size + conv_33_size + conv_56_size + pool_proj_size)`:
each path preserves the spatial dimensions and the output channel count is
the sum of the four paths' channel counts. -/
theorem inception_shape (t : Tensor) (n h w c : Nat)
    (s11 s33r s33 s56r s56 sp : Nat)
    (ht : shapeOf t = some [some n, some h, some w, some c]) :
    shapeOf (inception t s11 s33r s33 s56r s56 sp)
      = some [some n, some h, some w, some (s11 + s33 + s56 + sp)] := by
  simp [inception, shapeOf, shapesOf, ht, windowDim, sameDim_one, concatShapes,
    concatTwo, concatTwoAux, addDim, List.foldlM]

/-- C7 witness: a concrete instance of `inception_shape`. -/
theorem inception_shape_witness :
    shapeOf (Tensor.placeholder "t" [some 1, some 2, some 3, some 4])
        = some [some 1, some 2, some 3, some 4]
    ∧ shapeOf (inception (Tensor.placeholder "t" [some 1, some 2, some 3, some 4])
          5 6 7 8 9 10)
        = some [some 1, some 2, some 3, some (5 + 7 + 9 + 10)] :=
  ⟨rfl, inception_shape _ 1 2 3 4 5 6 7 8 9 10 rfl⟩

/-- C9: the input placeholder accepts batches of shape `(N, 224, 224, 3)`
with the batch dimension unconstrained (`none`), the final dense layer
produces one logit vector of length `num_classes` per input image (output
shape `(N, num_classes)`), and `num_classes` is the number of columns of the
training label matrix `y_train`. -/
theorem interface_shape (y_train : List (List ℚ)) (lr : ℚ) :
    shapeOf (run (num_classes y_train) lr).X
        = some [none, some 224, some 224, some 3]
    ∧ shapeOf (run (num_classes y_train) lr).linear
        = some [none, some (num_classes y_train)]
    ∧ num_classes y_train = (y_train.headD []).length :=
  ⟨rfl, rfl, rfl⟩

/-- Evaluation of `pyRange start stop step`: it lists the first `ceil((stop - start) / step)`
values `start + k * step`, for positive `step`. -/
theorem pyRange_eq_map (step : Nat) (hstep : 1 ≤ step) :
    ∀ d start stop, stop - start ≤ d →
      pyRange start stop step
        = (List.range ((stop - start + step - 1) / step)).map fun k => start + k * step := by
  intro d
  induction d with
  | zero =>
      intro start stop hd
      rw [pyRange, dif_pos (Or.inr (by omega))]
      rw [show stop - start = 0 by omega]
      rw [show (0 + step - 1) / step = 0 from Nat.div_eq_of_lt (by omega)]
      simp
  | succ d ih =>
      intro start stop hd
      by_cases hle : stop ≤ start
      · rw [pyRange, dif_pos (Or.inr hle)]
        rw [show stop - start = 0 by omega]
        rw [show (0 + step - 1) / step = 0 from Nat.div_eq_of_lt (by omega)]
        simp
      · rw [pyRange, dif_neg (by omega)]
        rw [ih (start + step) stop (by omega)]
        have hstep0 : 0 < step := hstep
        have hm : (stop - start + step - 1) / step
            = (stop - (start + step) + step - 1) / step + 1 := by
          rcases le_or_lt (stop - start) step with hca | hcb
          · have e1 : stop - start + step - 1 = (stop - start - 1) + step := by omega
            have e2 : stop - (start + step) + step - 1 = step - 1 := by omega
            rw [e1, Nat.add_div_right _ hstep0, e2,
              Nat.div_eq_of_lt (by omega), Nat.div_eq_of_lt (by omega)]
          · have e1 : stop - start + step - 1
                = (stop - (start + step) + step - 1) + step := by omega
            rw [e1, Nat.add_div_right _ hstep0]
        rw [hm, List.range_succ_eq_map, List.map_cons, List.map_map]
        have hf : ((fun k => start + k * step) ∘ Nat.succ)
            = fun k => (start + step) + k * step := by
          funext k
          simp [Function.comp, Nat.succ_mul]
          ring
        rw [hf]
        simp

/-- The batch starts of one epoch of `run` are the first
`stepsPerEpoch n batch_size` multiples of `batch_size`, in increasing
order. -/
theorem pyRange_batches (n batch_size : Nat) (hbs : 1 ≤ batch_size) :
    pyRange 0 n batch_size
      = (List.range (stepsPerEpoch n batch_size)).map fun k => k * batch_size := by
  have h := pyRange_eq_map batch_size hbs n 0 n (by omega)
  simpa [stepsPerEpoch] using h

/-- Counting elements of a flat-mapped list when every block has the same
count. -/
theorem countP_flatMap_const {γ δ : Type} (f : δ → List γ) (p : γ → Bool) (c : Nat)
    (hf : ∀ i, (f i).countP p = c) :
    ∀ l : List δ, (l.flatMap f).countP p = l.length * c := by
  intro l
  induction l with
  | nil => simp
  | cons a l ih =>
      simp only [List.flatMap_cons, List.countP_append, hf, ih,
        List.length_cons, Nat.succ_mul]
      ring

/-- C3: with `batch_size ≥ 1`, the training loop performs exactly
`num_epochs * ceil(len(X_train) / batch_size)` optimizer steps, and within
each epoch the batches are the consecutive slices
`X_train[k * batch_size : (k + 1) * batch_size]` (paired with the matching
label slices), in increasing order of start, the last batch possibly
shorter.  The trace is a total function of the inputs, so the loop
terminates. -/
theorem training_loop_batches {α β : Type} (X_train : List α) (y_train : List β)
    (num_epochs batch_size : Nat) (i : Nat) (hbs : 1 ≤ batch_size) :
    (runTrace X_train y_train num_epochs batch_size).countP Event.isTrainStep
        = num_epochs * stepsPerEpoch X_train.length batch_size
    ∧ epochEvents X_train y_train batch_size i
        = (List.range (stepsPerEpoch X_train.length batch_size)).map fun k =>
            .trainStep i (k * batch_size)
              ((X_train.drop (k * batch_size)).take batch_size)
              ((y_train.drop (k * batch_size)).take batch_size) := by
  have hchar : ∀ j : Nat, epochEvents X_train y_train batch_size j
      = (List.range (stepsPerEpoch X_train.length batch_size)).map fun k =>
          .trainStep j (k * batch_size)
            ((X_train.drop (k * batch_size)).take batch_size)
            ((y_train.drop (k * batch_size)).take batch_size) := by
    intro j
    rw [epochEvents, pyRange_batches _ _ hbs, List.map_map]
    refine List.map_congr_left fun k _ => ?_
    simp [Function.comp, pySlice]
  refine ⟨?_, hchar i⟩
  rw [runTrace, List.countP_append]
  rw [countP_flatMap_const _ _ (stepsPerEpoch X_train.length batch_size)
    (fun j => by
      rw [List.countP_append, hchar j, List.countP_map]
      simp only [Function.comp_def, Event.isTrainStep]
      simp [List.countP_true]
      rfl)]
  simp [Event.isTrainStep]

/-- C3 witness: two epochs over three examples with batch size two. -/
theorem training_loop_batches_witness :
    1 ≤ 2
    ∧ ((runTrace [10, 20, 30] [1, 2, 3] 2 2 : List (Event Nat Nat)).countP
          Event.isTrainStep = 2 * stepsPerEpoch 3 2
        ∧ epochEvents [10, 20, 30] [1, 2, 3] 2 0
          = (List.range (stepsPerEpoch 3 2)).map fun k =>
              .trainStep 0 (k * 2) (([10, 20, 30].drop (k * 2)).take 2)
                (([1, 2, 3].drop (k * 2)).take 2)) :=
  ⟨by decide, training_loop_batches [10, 20, 30] [1, 2, 3] 2 2 0 (by decide)⟩

/-- C8: the trace evaluates `(loss, accuracy)` on the validation set exactly
once per epoch (right after that epoch's batches) and exactly once on the
test set at the very end; both evaluations fetch only the `loss` and
`accuracy` tensors, never the training op, so under the session semantics
the parameters after an evaluation equal the parameters before it. -/
theorem evaluation_schedule {α β : Type} (X_train : List α) (y_train : List β)
    (num_epochs batch_size numClasses : Nat) (lr : ℚ) (i : Nat)
    (P : Type) (applyTrain : P → P) (p : P) (e : Event α β)
    (he : e.isTrainStep = false) :
    runTrace X_train y_train num_epochs batch_size
        = ((List.range num_epochs).flatMap fun j =>
            epochEvents X_train y_train batch_size j ++ [.evalValidation j])
          ++ [.evalTest]
    ∧ (runTrace X_train y_train num_epochs batch_size).countP
        Event.isEvalValidation = num_epochs
    ∧ (runTrace X_train y_train num_epochs batch_size).countP Event.isEvalTest = 1
    ∧ (runTrace X_train y_train num_epochs batch_size).getLast? = some .evalTest
    ∧ fetchOf (run numClasses lr) (Event.evalValidation i : Event α β)
        = .tensors [(run numClasses lr).loss, (run numClasses lr).accuracy]
    ∧ fetchOf (run numClasses lr) (Event.evalTest : Event α β)
        = .tensors [(run numClasses lr).loss, (run numClasses lr).accuracy]
    ∧ sessStep applyTrain p (fetchOf (run numClasses lr) e) = p := by
  refine ⟨rfl, ?_, ?_, ?_, rfl, rfl, ?_⟩
  · rw [runTrace, List.countP_append]
    rw [countP_flatMap_const _ _ 1 (fun j => by
      rw [List.countP_append, epochEvents]
      simp [List.countP_map, Event.isEvalValidation, Function.comp])]
    simp [Event.isEvalValidation]
  · rw [runTrace, List.countP_append]
    rw [countP_flatMap_const _ _ 0 (fun j => by
      rw [List.countP_append, epochEvents]
      simp [List.countP_map, Event.isEvalTest, Function.comp])]
    simp [Event.isEvalTest]
  · exact List.getLast?_concat _
  · cases e with
    | trainStep _ _ _ _ => simp [Event.isTrainStep] at he
    | evalValidation _ => simp [sessStep, fetchOf, Fetch.updatesParams]
    | evalTest => simp [sessStep, fetchOf, Fetch.updatesParams]

/-- C8 witness: a concrete instance of `evaluation_schedule`. -/
theorem evaluation_schedule_witness :
    (Event.evalTest : Event Nat Nat).isTrainStep = false
    ∧ (runTrace [10] [1] 1 1 = ((List.range 1).flatMap fun j =>
            epochEvents [10] [1] 1 j ++ [.evalValidation j]) ++ [.evalTest]
      ∧ (runTrace [10] [1] 1 1 : List (Event Nat Nat)).countP
          Event.isEvalValidation = 1
      ∧ (runTrace [10] [1] 1 1 : List (Event Nat Nat)).countP Event.isEvalTest = 1
      ∧ (runTrace [10] [1] 1 1 : List (Event Nat Nat)).getLast? = some .evalTest
      ∧ fetchOf (run 2 1) (Event.evalValidation 0 : Event Nat Nat)
          = .tensors [(run 2 1).loss, (run 2 1).accuracy]
      ∧ fetchOf (run 2 1) (Event.evalTest : Event Nat Nat)
          = .tensors [(run 2 1).loss, (run 2 1).accuracy]
      ∧ sessStep (fun n : Nat => n + 1) 5
          (fetchOf (run 2 1) (Event.evalTest : Event Nat Nat)) = 5) :=
  ⟨rfl, evaluation_schedule [10] [1] 1 1 2 1 0 Nat (fun n => n + 1) 5
    Event.evalTest rfl⟩

/-- In a sequence run with no error handling, the first failing call aborts
everything after it: exactly the calls up to and including the failing one
are attempted, and the error propagates to the caller. -/
theorem runSeq_first_error {α β ε : Type} (exec : Event α β → Except ε Unit) :
    ∀ (l : List (Event α β)) (k : Nat) (hk : k < l.length) (err : ε),
      (∀ j, (hj : j < k) → exec (l.get ⟨j, Nat.lt_trans hj hk⟩) = .ok ()) →
      exec (l.get ⟨k, hk⟩) = .error err →
      runSeq exec l = (l.take (k + 1), some err) := by
  intro l
  induction l with
  | nil => intro k hk; exact absurd hk (by simp)
  | cons e es ih =>
      intro k hk err hok herr
      cases k with
      | zero =>
          simp only [List.get] at herr
          simp [runSeq, herr]
      | succ k' =>
          have h0 : exec e = .ok () := hok 0 (Nat.succ_pos k')
          have hk' : k' < es.length := by simpa using hk
          have hok' : ∀ j, (hj : j < k') →
              exec (es.get ⟨j, Nat.lt_trans hj hk'⟩) = .ok () := fun j hj =>
            hok (j + 1) (Nat.succ_lt_succ hj)
          have herr' : exec (es.get ⟨k', hk'⟩) = .error err := herr
          simp only [runSeq, h0, ih k' hk' err hok' herr']
          simp [List.take_succ_cons]

/-- C10: the session loop of `run` has no error handling: if the calls
before position `k` of the trace succeed and call `k` raises, then exactly
the calls up to and including `k` are attempted (each once, in order), no
later training or evaluation step runs, and the error propagates out. -/
theorem error_aborts_run {α β ε : Type} (X_train : List α) (y_train : List β)
    (num_epochs batch_size : Nat) (exec : Event α β → Except ε Unit)
    (k : Nat) (hk : k < (runTrace X_train y_train num_epochs batch_size).length)
    (err : ε)
    (hok : ∀ j, (hj : j < k) →
      exec ((runTrace X_train y_train num_epochs batch_size).get
        ⟨j, Nat.lt_trans hj hk⟩) = .ok ())
    (herr : exec ((runTrace X_train y_train num_epochs batch_size).get
      ⟨k, hk⟩) = .error err) :
    runSeq exec (runTrace X_train y_train num_epochs batch_size)
      = ((runTrace X_train y_train num_epochs batch_size).take (k + 1), some err) :=
  runSeq_first_error exec _ k hk err hok herr

/-- C10 witness: a run whose very first session call raises aborts with
that error after attempting only that call. -/
theorem error_aborts_run_witness :
    runSeq (fun e : Event Nat Nat => if e.isEvalTest then Except.error 7 else Except.ok ())
        (runTrace [0] [0] 0 1)
      = ((runTrace [0] [0] 0 1).take 1, some 7) :=
  error_aborts_run [0] [0] 0 1 _ 0 (by decide) 7
    (fun j hj => absurd hj (Nat.not_lt_zero j)) rfl

/-- C2: the forward pass built by `run` wires, in order: a 7x7 stride-2
convolution, a 3x3 stride-2 max pool and local response normalization; a
1x1 convolution, a 3x3 convolution, normalization and a 3x3 stride-2 max
pool; inception 3a and 3b and a max pool; inception 4a–4e and a max pool,
with the two auxiliary heads attached to the outputs of inception 4a and
inception 4d; inception 5a and 5b and a 7x7 average pool; then flatten,
dropout and a dense layer with `num_classes` units — nine inception modules
and two auxiliary heads in total — and the training loop then runs the
gradient-descent op `adamMinimize` on every batch of the trace. -/
theorem forward_pass_wiring (numClasses : Nat) (lr : ℚ)
    (epoch start : Nat) (bX : List Nat) (bY : List Nat) :
    (run numClasses lr).conv_1
        = Tensor.conv2d (run numClasses lr).X 64 (7, 7) (2, 2) .same
    ∧ (run numClasses lr).pool_1
        = Tensor.maxPooling2d (run numClasses lr).conv_1 (3, 3) (2, 2) .same
    ∧ (run numClasses lr).norm_1
        = Tensor.localResponseNormalization (run numClasses lr).pool_1
            2 1 (2 / 10000) (3 / 4)
    ∧ (run numClasses lr).conv_2a
        = Tensor.conv2d (run numClasses lr).norm_1 64 (1, 1) (1, 1) .same
    ∧ (run numClasses lr).conv_2b
        = Tensor.conv2d (run numClasses lr).conv_2a 192 (3, 3) (1, 1) .same
    ∧ (run numClasses lr).norm_2
        = Tensor.localResponseNormalization (run numClasses lr).conv_2b
            2 1 (2 / 10000) (3 / 4)
    ∧ (run numClasses lr).pool_2
        = Tensor.maxPooling2d (run numClasses lr).norm_2 (3, 3) (2, 2) .same
    ∧ (run numClasses lr).inception_3a
        = inception (run numClasses lr).pool_2 64 96 128 16 32 32
    ∧ (run numClasses lr).inception_3b
        = inception (run numClasses lr).inception_3a 128 128 192 32 96 64
    ∧ (run numClasses lr).pool_3
        = Tensor.maxPooling2d (run numClasses lr).inception_3b (3, 3) (2, 2) .same
    ∧ (run numClasses lr).inception_4a
        = inception (run numClasses lr).pool_3 192 96 208 16 48 64
    ∧ (run numClasses lr).inception_4b
        = inception (run numClasses lr).inception_4a 160 112 224 24 64 64
    ∧ (run numClasses lr).inception_4c
        = inception (run numClasses lr).inception_4b 128 128 256 24 64 64
    ∧ (run numClasses lr).inception_4d
        = inception (run numClasses lr).inception_4c 112 144 288 32 64 64
    ∧ (run numClasses lr).inception_4e
        = inception (run numClasses lr).inception_4d 256 160 320 32 128 128
    ∧ (run numClasses lr).pool_4
        = Tensor.maxPooling2d (run numClasses lr).inception_4e (3, 3) (2, 2) .same
    ∧ (run numClasses lr).auxiliary_1
        = auxiliary numClasses (run numClasses lr).inception_4a
    ∧ (run numClasses lr).auxiliary_2
        = auxiliary numClasses (run numClasses lr).inception_4d
    ∧ (run numClasses lr).inception_5a
        = inception (run numClasses lr).pool_4 256 160 320 32 128 128
    ∧ (run numClasses lr).inception_5b
        = inception (run numClasses lr).inception_5a 384 192 384 48 128 128
    ∧ (run numClasses lr).pool_5
        = Tensor.averagePooling2d (run numClasses lr).inception_5b (7, 7) (1, 1) .valid
    ∧ (run numClasses lr).flat_5 = Tensor.flatten (run numClasses lr).pool_5
    ∧ (run numClasses lr).drop_6 = Tensor.dropout (run numClasses lr).flat_5 (4 / 10)
    ∧ (run numClasses lr).linear = Tensor.dense (run numClasses lr).drop_6 numClasses
    ∧ (run numClasses lr).train
        = TrainOp.adamMinimize lr (run numClasses lr).loss
    ∧ fetchOf (run numClasses lr) (Event.trainStep epoch start bX bY : Event Nat Nat)
        = .trainOp (TrainOp.adamMinimize lr (run numClasses lr).loss) :=
  ⟨rfl, rfl, rfl, rfl, rfl, rfl, rfl, rfl, rfl, rfl, rfl, rfl, rfl, rfl, rfl,
    rfl, rfl, rfl, rfl, rfl, rfl, rfl, rfl, rfl, rfl, rfl⟩

/-- Unfolding of `roundRow` on a cons cell. -/
theorem roundRow_cons (a : ℚ) (r : List ℚ) :
    roundRow (a :: r) = (tfRound a : ℚ) :: roundRow r := rfl

/-- Unfolding of `equalRow` on cons cells. -/
theorem equalRow_cons (x y : ℚ) (xs ys : List ℚ) :
    equalRow (x :: xs) (y :: ys) = decide (x = y) :: equalRow xs ys := rfl

/-- Unfolding of `castRow` on a cons cell. -/
theorem castRow_cons (b : Bool) (bs : List Bool) :
    castRow (b :: bs) = (if b then 1 else 0) :: castRow bs := rfl

/-- The sum of one row of the cast comparison matrix is the number of
column indices whose rounded entries agree. -/
theorem castRow_sum :
    ∀ (r : List ℚ) (s : List ℚ) (c : Nat), r.length = c → s.length = c →
      (castRow (equalRow (roundRow r) (roundRow s))).sum
        = ∑ j ∈ Finset.range c,
            (if tfRound (r.getD j 0) = tfRound (s.getD j 0) then (1 : ℚ) else 0) := by
  intro r
  induction r with
  | nil =>
      intro s c hr hs
      have hc : c = 0 := by simpa using hr.symm
      subst hc
      simp [roundRow, equalRow, castRow]
  | cons a r ih =>
      intro s c hr hs
      cases s with
      | nil => exact absurd (hs.symm ▸ hr) (by simp)
      | cons b s' =>
          have hc : c = r.length + 1 := by simpa using hr.symm
          subst hc
          have hs' : s'.length = r.length := by simpa using hs
          rw [roundRow_cons, roundRow_cons, equalRow_cons, castRow_cons,
            List.sum_cons, ih s' r.length rfl hs']
          rw [Finset.sum_range_succ']
          simp [List.getD_cons_zero, List.getD_cons_succ, Int.cast_inj, add_comm]

/-- Unfolding of `roundMat` on a cons cell. -/
theorem roundMat_cons (r : List ℚ) (M : List (List ℚ)) :
    roundMat (r :: M) = roundRow r :: roundMat M := rfl

/-- Unfolding of `equalMat` on cons cells. -/
theorem equalMat_cons (x y : List ℚ) (A B : List (List ℚ)) :
    equalMat (x :: A) (y :: B) = equalRow x y :: equalMat A B := rfl

/-- Unfolding of `castMat` on a cons cell. -/
theorem castMat_cons (x : List Bool) (M : List (List Bool)) :
    castMat (x :: M) = castRow x :: castMat M := rfl

/-- Numerator of the accuracy value: the total over all rows of the per-row
match counts. -/
theorem accuracy_num :
    ∀ (L Y : List (List ℚ)) (c : Nat), L.length = Y.length →
      (∀ r ∈ L, r.length = c) → (∀ r ∈ Y, r.length = c) →
      ((castMat (equalMat (roundMat L) (roundMat Y))).map List.sum).sum
        = ∑ i ∈ Finset.range L.length, ∑ j ∈ Finset.range c,
            (if tfRound ((L.getD i []).getD j 0) = tfRound ((Y.getD i []).getD j 0)
             then (1 : ℚ) else 0) := by
  intro L
  induction L with
  | nil =>
      intro Y c hlen hL hY
      simp [roundMat, equalMat, castMat]
  | cons r L ih =>
      intro Y c hlen hL hY
      cases Y with
      | nil => simp at hlen
      | cons s Y' =>
          have hlen' : L.length = Y'.length := by simpa using hlen
          have hr : r.length = c := hL r (by simp)
          have hs : s.length = c := hY s (by simp)
          have hL' : ∀ x ∈ L, x.length = c := fun x hx => hL x (by simp [hx])
          have hY' : ∀ x ∈ Y', x.length = c := fun x hx => hY x (by simp [hx])
          rw [roundMat_cons, roundMat_cons, equalMat_cons, castMat_cons,
            List.map_cons, List.sum_cons, castRow_sum r s c hr hs,
            ih Y' c hlen' hL' hY']
          simp only [List.length_cons]
          rw [Finset.sum_range_succ']
          simp only [List.getD_cons_zero, List.getD_cons_succ]
          exact add_comm _ _

/-- Denominator of the accuracy value: the total entry count is
`rows * columns`. -/
theorem accuracy_den :
    ∀ (L Y : List (List ℚ)) (c : Nat), L.length = Y.length →
      (∀ r ∈ L, r.length = c) → (∀ r ∈ Y, r.length = c) →
      ((castMat (equalMat (roundMat L) (roundMat Y))).map List.length).sum
        = L.length * c := by
  intro L
  induction L with
  | nil =>
      intro Y c hlen hL hY
      simp [roundMat, equalMat, castMat]
  | cons r L ih =>
      intro Y c hlen hL hY
      cases Y with
      | nil => simp at hlen
      | cons s Y' =>
          have hlen' : L.length = Y'.length := by simpa using hlen
          have hr : r.length = c := hL r (by simp)
          have hs : s.length = c := hY s (by simp)
          have hL' : ∀ x ∈ L, x.length = c := fun x hx => hL x (by simp [hx])
          have hY' : ∀ x ∈ Y', x.length = c := fun x hx => hY x (by simp [hx])
          rw [roundMat_cons, roundMat_cons, equalMat_cons, castMat_cons,
            List.map_cons, List.sum_cons, ih Y' c hlen' hL' hY']
          have hhead : (castRow (equalRow (roundRow r) (roundRow s))).length = c := by
            simp [castRow, equalRow, roundRow, hr, hs]
          rw [hhead]
          simp only [List.length_cons]
          ring

/-- C5: the accuracy computed by `run` is
`reduce_mean(cast(equal(round(linear), round(y))))`, and its value on a
logits matrix `L` and a labels matrix `Y` of equal shape `n × c` is the mean
over all (example, class) entries of the indicator that the rounded entries
agree — an element-wise rounded comparison over every class, not an
argmax-based classification accuracy. -/
theorem accuracy_is_elementwise (L Y : List (List ℚ)) (n c : Nat)
    (hL : L.length = n) (hY : Y.length = n)
    (hLr : ∀ r ∈ L, r.length = c) (hYr : ∀ r ∈ Y, r.length = c) :
    accuracyValue L Y = elementwiseAccuracy L Y n c
    ∧ ∀ (numClasses : Nat) (lr : ℚ),
        (run numClasses lr).corrects
            = Tensor.equal (Tensor.round (run numClasses lr).linear)
                (Tensor.round (run numClasses lr).y)
        ∧ (run numClasses lr).accuracy
            = Tensor.reduceMean (Tensor.castFloat32 (run numClasses lr).corrects) := by
  refine ⟨?_, fun numClasses lr => ⟨rfl, rfl⟩⟩
  have hlen : L.length = Y.length := by omega
  rw [accuracyValue, reduceMeanAll, accuracy_num L Y c hlen hLr hYr,
    accuracy_den L Y c hlen hLr hYr, elementwiseAccuracy, hL]
  push_cast
  ring_nf

/-- C5 witness: a `1 × 2` instance of `accuracy_is_elementwise`. -/
theorem accuracy_is_elementwise_witness :
    ([[(1 : ℚ) / 2, 2]].length = 1 ∧ [[(0 : ℚ), 3]].length = 1
      ∧ (∀ r ∈ [[(1 : ℚ) / 2, 2]], r.length = 2)
      ∧ (∀ r ∈ [[(0 : ℚ), 3]], r.length = 2))
    ∧ (accuracyValue [[(1 : ℚ) / 2, 2]] [[(0 : ℚ), 3]]
          = elementwiseAccuracy [[(1 : ℚ) / 2, 2]] [[(0 : ℚ), 3]] 1 2
        ∧ ∀ (numClasses : Nat) (lr : ℚ),
            (run numClasses lr).corrects
                = Tensor.equal (Tensor.round (run numClasses lr).linear)
                    (Tensor.round (run numClasses lr).y)
            ∧ (run numClasses lr).accuracy
                = Tensor.reduceMean
                    (Tensor.castFloat32 (run numClasses lr).corrects)) :=
  ⟨⟨by decide, by decide, by decide, by decide⟩,
    accuracy_is_elementwise [[(1 : ℚ) / 2, 2]] [[(0 : ℚ), 3]] 1 2
      (by decide) (by decide) (by decide) (by decide)⟩

end GoogLeNet
